import Mathlib

/-!
Verification of the `provision` command-line tool.

This file gives a shallow embedding, in Lean 4, of the parts of the
`provision` Python package that the specification talks about, and proves
or refutes the specification claims against that embedding.

Embedded components (each definition carries a comment naming its source):
  * `cli` (src/provision/cli.py): dispatch and process exit status.
  * `chdir` (src/provision/utils.py): the scoped working-directory
    context manager, modelled together with the semantics of a
    `contextlib.contextmanager` generator used in a `with` statement.
  * `update_cache` / `aptOp` (src/provision/apt.py): the process-wide
    cache-freshness flag.
  * `mkdir_p` (src/provision/utils.py): recursive directory creation
    over an explicit finite filesystem model.
  * `handle_remove_readonly` (src/provision/utils.py): the rmtree
    error handler.
  * `install` (src/provision/apt.py): apt package-list resolution.
  * the asset-selection loop of `github_latest_release`
    (src/provision/git.py), with Python `list.__getitem__` and `int()`
    semantics made explicit.
  * `git_clone` (src/provision/git.py), with Python mutable-default-argument
    semantics made explicit as threaded state.

Filesystem paths are modelled as lists of path segments (relative paths
without a separator); the working directory is modelled as an opaque
string.  External commands are not executed: embeddings record the exact
argument vector that the source would hand to `subprocess.run`.
-/

/- ### Errno constants (Linux values, as used by the Python `errno` module) -/

def EPERM : Nat := 1
def ENOENT : Nat := 2
def EACCES : Nat := 13
def EEXIST : Nat := 17

/- ### CLI dispatch (src/provision/cli.py, `cli`) -/

/-- The part of the argparse `Namespace` that `cli` inspects: whether a
dispatch function was attached by `set_defaults(func=...)`, and the value
that function returns when called.  (`adapterResult` is the adapter-level
result code: the adapters in apt.py/git.py/install.py return `1` on their
failure signals and `0` on success.) -/
structure ParsedArgs where
  hasFunc : Bool
  adapterResult : Int
deriving DecidableEq, Repr

/-- Outcome of `build_parser().parse_known_args(cli_args)` as observed by
`cli`: a parsed namespace, an argparse error (`ColoredArgParser.error`
prints usage and calls `sys.exit(2)`), or a help request (argparse prints
help and exits 0). -/
inductive ParseOutcome
  | parsed (a : ParsedArgs)
  | parseError
  | helpRequested
deriving DecidableEq, Repr

/-- The call `args.func(args)` as run by `cli`: `none` models the `AttributeError`
raised when no `func` attribute is present (a placeholder command), which
`cli` catches and logs. -/
def dispatch (a : ParsedArgs) : Option Int :=
  if a.hasFunc then some a.adapterResult else none

/-- Shallow embedding of `cli` (src/provision/cli.py lines 42-70): the
process exit status of one invocation.  On a parse error argparse exits
with status 2 before `cli` resumes; otherwise `cli` calls `args.func(args)`,
discards its return value (`args.func(args)` is a bare expression
statement), catches `AttributeError`, and executes `return 0`. -/
def cli : ParseOutcome → Nat
  | ParseOutcome.parsed a =>
    let _ := dispatch a
    0
  | ParseOutcome.parseError => 2
  | ParseOutcome.helpRequested => 0

/- ### Scoped directory context (src/provision/utils.py, `chdir`) -/

/-- Errors that can surface from running a `with chdir(path): body` block:
`runtimeError` is the `RuntimeError("generator didn't yield")` that
`contextlib.contextmanager` raises when the generator returns before
yielding; `userError` stands for any exception raised by the body. -/
inductive CmErr
  | runtimeError
  | userError
deriving DecidableEq, Repr

/-- Shallow embedding of `with chdir(path): body`
(src/provision/utils.py lines 119-135).  State is the current working
directory (an opaque absolute path string).  The body receives the working
directory set for it and reports the working directory it left behind
together with its outcome (normal value or raised error).

Faithful to the source:
  * `if not path: return` — the generator returns before its `yield`, so
    `contextlib` raises `RuntimeError` at `__enter__` and the body is
    never entered;
  * otherwise `prev_cwd` records the directory current at entry,
    `os.chdir(path)` switches to `path` (the embedding assumes the target
    exists, as every caller in the source arranges), and the
    `try/finally` restores `prev_cwd` on normal exit and on a raised
    error alike (`gen.throw` runs the `finally` block). -/
def chdir {α : Type} (cwd path : String)
    (body : String → String × Except CmErr α) : String × Except CmErr α :=
  if path = "" then (cwd, Except.error CmErr.runtimeError)
  else
    let prev := cwd
    let r := body path
    (prev, r.2)

/- ### Cache-freshness flag (src/provision/apt.py, `_update_cache`) -/

/-- Process-wide apt state: the module-level `CACHE_UPDATED` flag plus a
log of every command vector handed to `utils.run`. -/
structure AptState where
  cacheUpdated : Bool
  log : List (List String)
deriving DecidableEq, Repr

/-- The index refresh command run by `_update_cache` (shlex-split form of
the string `"sudo apt update -y"`). -/
def aptUpdateCmd : List String := ["sudo", "apt", "update", "-y"]

/-- Shallow embedding of `_update_cache` (src/provision/apt.py lines
13-22): if `CACHE_UPDATED` is unset, run `sudo apt update -y` and set it;
otherwise do nothing. -/
def update_cache (st : AptState) : AptState :=
  if st.cacheUpdated then st
  else { cacheUpdated := true, log := st.log ++ [aptUpdateCmd] }

/-- One package-manager operation that depends on a fresh cache
(`_list_upgradable`, `_upgrade`, `install`, `update` all begin with
`_update_cache()`): refresh the cache if needed, then run the operation's
own commands `extra`. -/
def aptOp (extra : List (List String)) (st : AptState) : AptState :=
  let st1 := update_cache st
  { st1 with log := st1.log ++ extra }

/-- A sequence of cache-dependent operations within one process lifetime. -/
def runOps (ops : List (List (List String))) (st : AptState) : AptState :=
  ops.foldl (fun s e => aptOp e s) st

/- ### Filesystem model and recursive directory creation
(src/provision/utils.py, `mkdir_p`) -/

/-- What a filesystem path can currently be: a directory or a regular
file (the two cases `mkdir_p` distinguishes via `os.path.isdir` /
`os.path.isfile`). -/
inductive FKind
  | dir
  | file
deriving DecidableEq, Repr

/-- A finite filesystem: a list of (path, kind) entries, newest first.
Paths are lists of segments; the empty list stands for the empty path
string (which is what `os.path.split` bottoms out at for relative
paths). -/
structure FS where
  entries : List (List String × FKind)
deriving DecidableEq, Repr

/-- Look up the kind of a path. -/
def FS.lookup (fs : FS) (p : List String) : Option FKind :=
  (fs.entries.find? (fun e => e.1 == p)).map (fun e => e.2)

/-- Record a path with the given kind (shadowing any older entry). -/
def FS.insert (fs : FS) (p : List String) (k : FKind) : FS :=
  ⟨(p, k) :: fs.entries⟩

/-- Embedding of `os.path.isdir`. -/
def isdir (fs : FS) (p : List String) : Bool :=
  fs.lookup p == some FKind.dir

/-- Embedding of `os.path.isfile`. -/
def isfile (fs : FS) (p : List String) : Bool :=
  fs.lookup p == some FKind.file

/-- Errors `mkdir_p` can raise: the explicit `OSError` for a regular file
in the way (the spec's `PathConflict`), or a propagated `os.mkdir`
error carrying its errno. -/
inductive MkErr
  | pathConflict
  | osError (e : Nat)
deriving DecidableEq, Repr

/-- The `os.mkdir` system call on the modelled filesystem: `EEXIST` if
the path is already present, `ENOENT` if the parent (when there is one)
is not a directory, otherwise create the directory. -/
def os_mkdir (fs : FS) (p : List String) : Except Nat FS :=
  if (fs.lookup p).isSome then Except.error EEXIST
  else if p.dropLast ≠ [] ∧ isdir fs p.dropLast = false then Except.error ENOENT
  else Except.ok (fs.insert p FKind.dir)

/-- Shallow embedding of `mkdir_p` (src/provision/utils.py lines 26-57),
parameterized by the creation primitive `M` (the real `os.mkdir` call,
which another process may race; `M := os_mkdir` is the race-free
instance):
  * if the path is a directory, silently complete;
  * if a regular file is in the way, raise (`PathConflict`);
  * otherwise split into `head, tail = os.path.split(newdir)`, recurse on
    a missing non-empty head, and if `tail` is non-empty call `os.mkdir`,
    swallowing an `EEXIST` failure and re-raising any other errno. -/
def mkdir_p (M : FS → List String → Except Nat FS) (fs : FS) (p : List String) :
    Except MkErr FS :=
  if isdir fs p then Except.ok fs
  else if isfile fs p then Except.error MkErr.pathConflict
  else
    let step1 : Except MkErr FS :=
      if h : p.dropLast ≠ [] ∧ isdir fs p.dropLast = false then
        mkdir_p M fs p.dropLast
      else Except.ok fs
    match step1 with
    | Except.error e => Except.error e
    | Except.ok fs1 =>
      if p.getLastD "" ≠ "" then
        match M fs1 p with
        | Except.ok fs2 => Except.ok fs2
        | Except.error e =>
          if e = EEXIST then Except.ok fs1 else Except.error (MkErr.osError e)
      else Except.ok fs1
termination_by p.length
decreasing_by
  simp_wf
  have hp : p ≠ [] := by
    intro hnil
    exact h.1 (by simp [hnil])
  have hpos : 0 < p.length := List.length_pos.mpr hp
  omega

/- ### rmtree error handler (src/provision/utils.py,
`handle_remove_readonly` and `is_readonly_path`) -/

/-- Observable trace of one invocation of the `shutil.rmtree` error
handler: whether it granted the write bit and retried `func(path)`,
whether it emitted the non-fatal `ResourceWarning`, and whether it
re-raised (aborting the removal) or returned (continuing it). -/
structure HTrace where
  retried : Bool
  warned : Bool
  propagated : Bool
deriving DecidableEq, Repr

/-- The membership test `e.errno in [errno.EACCES, errno.EPERM]`. -/
def permErrno (e : Nat) : Bool :=
  e == EACCES || e == EPERM

/-- Shallow embedding of `is_readonly_path` (src/provision/utils.py lines
105-116): an existing path whose owner-read bit (`stat.S_IREAD`) is set
or which `os.access` reports as not writable. -/
def is_readonly_path (pathExists readBit writable : Bool) : Bool :=
  pathExists && (readBit || !writable)

/-- Shallow embedding of `handle_remove_readonly` (src/provision/utils.py
lines 76-102).  `readonly` is the value of `is_readonly_path(path)` at
handler time, `retryErr` the outcome of the retried `func(path)` when a
retry happens (`none` = retry succeeded, `some e` = it raised `OSError`
with errno `e`), `origErrno` the errno of the exception that invoked the
handler.  Faithful to the source control flow: the retry happens only
under the `is_readonly_path` gate; a permission-errno retry failure
warns and returns; every other flow falls through to the check on the
original errno, which warns and returns on a permission errno and
re-raises otherwise. -/
def handle_remove_readonly (readonly : Bool) (retryErr : Option Nat)
    (origErrno : Nat) : HTrace :=
  let origCheck : Bool → HTrace := fun r =>
    if permErrno origErrno then ⟨r, true, false⟩ else ⟨r, false, true⟩
  if readonly then
    match retryErr with
    | some e => if permErrno e then ⟨true, true, false⟩ else origCheck true
    | none => origCheck true
  else origCheck false

/- ### apt install package resolution (src/provision/apt.py, `install`) -/

/-- Split a character list at every newline. -/
def splitNl : List Char → List Char → List String
  | [], acc => [String.mk acc.reverse]
  | c :: rest, acc =>
    if c = '\n' then String.mk acc.reverse :: splitNl rest []
    else splitNl rest (c :: acc)

/-- Python `str.splitlines` restricted to `\n` separators (the package
file is read as text, one name per line): split at newlines, with no
empty final piece for a trailing newline and `[]` for the empty
string. -/
def splitlines (s : String) : List String :=
  let l := splitNl s.data []
  if l.getLastD "" = "" then l.dropLast else l

/-- Shallow embedding of `install` (src/provision/apt.py lines 38-62).
`whichAptGet` is `shutil.which("apt-get")`, `argsPackages` the
command-line `args.packages`, `pkgFile` the contents of the fallback
package-list file (`none` when opening raises `FileNotFoundError`),
`pkgs` the `pkgs` keyword parameter (default `[]`).  Returns the updated
cache state, the adapter return code, and the install command vector if
one is invoked (the embedding assumes the `run(cmd)` call itself does
not raise). -/
def install (whichAptGet : Bool) (argsPackages : List String)
    (pkgFile : Option String) (pkgs : List String) (st : AptState) :
    AptState × Int × Option (List String) :=
  let st1 := update_cache st
  if !whichAptGet then (st1, 1, none)
  else
    let packages := pkgs ++ argsPackages
    let resolved : Except Unit (List String) :=
      if packages.length = 0 then
        match pkgFile with
        | some contents => Except.ok (splitlines contents)
        | none => Except.error ()
      else Except.ok packages
    match resolved with
    | Except.error _ => (st1, 1, none)
    | Except.ok ps => (st1, 0, some (["sudo", "apt", "install", "-y"] ++ ps))

/- ### Release-asset selection loop (src/provision/git.py,
`github_latest_release`) -/

/-- Parse a non-empty run of decimal digits (accumulator form). -/
def parseNatAux : List Char → Nat → Option Nat
  | [], acc => some acc
  | c :: rest, acc =>
    if c.isDigit then parseNatAux rest (10 * acc + (c.toNat - 48)) else none

/-- Parse a non-empty all-digit character list as a natural number. -/
def parseNat : List Char → Option Nat
  | [] => none
  | cs => parseNatAux cs 0

/-- ASCII whitespace stripped by Python `int()`. -/
def isSpace (c : Char) : Bool :=
  c = ' ' || c = '\t' || c = '\n' || c = '\r'

/-- Strip surrounding whitespace from a character list. -/
def trimChars (cs : List Char) : List Char :=
  ((cs.dropWhile isSpace).reverse.dropWhile isSpace).reverse

/-- Python `int(s)` on optionally signed decimal strings with
surrounding whitespace; `none` models `ValueError`. -/
def pyInt (s : String) : Option Int :=
  match trimChars s.data with
  | '-' :: rest => (parseNat rest).map (fun n => -(n : Int))
  | '+' :: rest => (parseNat rest).map (fun n => (n : Int))
  | cs => (parseNat cs).map (fun n => (n : Int))

/-- Python sequence indexing for a fully materialized sequence of length
`n` (after the menu is printed, the asset list has been iterated in
full): a non-negative index must be `< n`; a negative index wraps from
the end; anything else raises `IndexError`. -/
def pyIndex (n : Nat) (i : Int) : Option Nat :=
  if 0 ≤ i then (if i < (n : Int) then some i.toNat else none)
  else (if -i ≤ (n : Int) then some (n - (-i).toNat) else none)

/-- Result of the interactive selection loop: the user cancelled with
empty input, an asset index was chosen (`break`), or the scripted input
ran out (the real loop would block on `input()`). -/
inductive PickResult
  | canceled
  | chosen (idx : Nat)
  | inputExhausted
deriving DecidableEq, Repr

/-- Shallow embedding of the `while True` selection loop of
`github_latest_release` (src/provision/git.py lines 84-98): read a
choice; empty input cancels (the caller returns 1); a `ValueError` from
`int(choice)` or an `IndexError` from `assets[int(choice) - 1]`
re-prompts; otherwise the indexed asset is chosen. -/
def pick_asset : List String → Nat → PickResult
  | [], _ => PickResult.inputExhausted
  | c :: rest, n =>
    if c = "" then PickResult.canceled
    else
      match pyInt c with
      | none => pick_asset rest n
      | some i =>
        match pyIndex n (i - 1) with
        | some j => PickResult.chosen j
        | none => pick_asset rest n

/- ### Repository cloning (src/provision/git.py, `git_clone`) -/

/-- The list object bound to `git_clone`'s `args` parameter default at
function-definition time.  Python evaluates default values once: every
call that leaves `args` at its default reads and mutates this one shared
list, so it is process-wide state threaded through calls. -/
structure CloneDefaults where
  args : List String
deriving DecidableEq, Repr

/-- Embedding of `os.path.expanduser`: a leading `~` is replaced by the home
directory; every other string (including the empty string) is returned
unchanged. -/
def expanduser (home : String) (s : String) : String :=
  if s.startsWith "~" then home ++ s.drop 1 else s

/-- Shallow embedding of `git_clone` (src/provision/git.py lines 13-27).
`gitOnPath` is `shutil.which("git")`; when false the function logs and
returns without running anything.  A repo string not starting with
`git@` or `http` is rewritten to the owner's SSH URL.  Because
`dest_path` defaults to `""` (not `None`), the `is not None` check
always passes for defaulted calls and `args.append(...)` runs; when
`args` is left at its default this appends to (and permanently grows)
the shared default list `st`.  Returns the executed command vector
(`none` when git is missing) and the new default-list state. -/
def git_clone (gitOnPath : Bool) (home : String) (st : CloneDefaults)
    (repo : String) (dest_path : Option String)
    (argsOverride : Option (List String)) :
    Option (List String) × CloneDefaults :=
  if !gitOnPath then (none, st)
  else
    let repo1 :=
      if repo.take 4 = "git@" ∨ repo.take 4 = "http" then repo
      else "git@github.com:comfortablynick/" ++ repo ++ ".git"
    match argsOverride with
    | none =>
      match dest_path with
      | some d =>
        let args1 := st.args ++ [expanduser home d]
        (some (["git", "clone", repo1] ++ args1), ⟨args1⟩)
      | none => (some (["git", "clone", repo1] ++ st.args), st)
    | some l =>
      let args1 :=
        match dest_path with
        | some d => l ++ [expanduser home d]
        | none => l
      (some (["git", "clone", repo1] ++ args1), st)

/- ### Theorems -/

/-- C1, counterexample: the claim maps an adapter-level failure signal
(the dispatched function returning 1) to overall exit status 1, but `cli`
discards the return value of `args.func(args)` and returns 0: a parsed
command whose adapter reports failure still exits with status 0. -/
theorem cli_adapter_failure_exit_zero :
    dispatch ⟨true, 1⟩ = some 1 ∧
    cli (ParseOutcome.parsed ⟨true, 1⟩) = 0 ∧
    cli (ParseOutcome.parsed ⟨true, 1⟩) ≠ 1 := by
  refine ⟨rfl, rfl, ?_⟩
  decide

/-- C1, amended: the overall process exit status is 2 when argument
parsing fails and 0 for every successfully parsed invocation — the
dispatcher discards the adapter's result, so adapter-level failure
signals do not affect the exit status. -/
theorem cli_exit_status :
    (∀ a : ParsedArgs, cli (ParseOutcome.parsed a) = 0) ∧
    cli ParseOutcome.parseError = 2 ∧
    cli ParseOutcome.helpRequested = 0 :=
  ⟨fun _ => rfl, rfl, rfl⟩

/-- C2: for every non-empty target path and every body, the working
directory after the context exits equals the directory current at entry,
whether the body completed normally or raised; and nested contexts nest
correctly: the inner context restores to the outer context's directory
and the outer restores to the pre-outer directory, even if an error
occurs inside. -/
theorem chdir_restores :
    (∀ (α : Type) (cwd path : String) (body : String → String × Except CmErr α),
      path ≠ "" → (chdir cwd path body).1 = cwd) ∧
    (∀ (α : Type) (cwd pY pX : String) (bodyX : String → String × Except CmErr α),
      pY ≠ "" → pX ≠ "" →
      (chdir cwd pY (fun cY => chdir cY pX bodyX)).1 = cwd ∧
      (chdir pY pX bodyX).1 = pY) := by
  constructor
  · intro α cwd path body hp
    simp [chdir, hp]
  · intro α cwd pY pX bodyX hY hX
    constructor
    · simp [chdir, hY]
    · simp [chdir, hX]

/-- Witness for `chdir_restores` at concrete inputs, with a body that
raises an error (the restoration holds on the error exit path). -/
theorem chdir_restores_witness :
    (chdir "/home/u" "/tmp/build"
      (fun c => (c, (Except.error CmErr.userError : Except CmErr Nat)))).1 = "/home/u" ∧
    (chdir "/home/u" "/tmp/outer"
      (fun cY => chdir cY "/tmp/inner"
        (fun c => (c, (Except.error CmErr.userError : Except CmErr Nat))))).1 = "/home/u" ∧
    (chdir "/tmp/outer" "/tmp/inner"
      (fun c => (c, (Except.error CmErr.userError : Except CmErr Nat)))).1 = "/tmp/outer" := by
  refine ⟨chdir_restores.1 Nat _ _ _ (by decide), ?_, ?_⟩
  · exact (chdir_restores.2 Nat "/home/u" "/tmp/outer" "/tmp/inner" _ (by decide) (by decide)).1
  · exact (chdir_restores.2 Nat "/home/u" "/tmp/outer" "/tmp/inner" _ (by decide) (by decide)).2

/-- C3: with an empty path the source intends a no-op (the guard
`if not path: return`), but because `chdir` is a `contextlib`
generator-based context manager, returning before the `yield` makes
`__enter__` raise `RuntimeError("generator didn't yield")`: the block
never runs and the `with` statement raises instead of succeeding.
Evaluated here at a body that would return 42: the result is the
RuntimeError, not the body's value. -/
theorem chdir_empty_path_raises :
    chdir "/start" "" (fun c => (c, Except.ok (42 : Nat)))
      = ("/start", Except.error CmErr.runtimeError) ∧
    (chdir "/start" "" (fun c => (c, Except.ok (42 : Nat)))).2 ≠ Except.ok 42 := by
  refine ⟨rfl, ?_⟩
  intro h
  exact Except.noConfusion h

/-- Helper: once the cache flag is set, further cache-dependent operations
never run the refresh command again (no operation resets the flag). -/
theorem runOps_fresh (ops : List (List (List String))) (st : AptState)
    (hst : st.cacheUpdated = true) (hops : ∀ e ∈ ops, aptUpdateCmd ∉ e) :
    (runOps ops st).cacheUpdated = true ∧
    (runOps ops st).log.count aptUpdateCmd = st.log.count aptUpdateCmd := by
  induction ops generalizing st with
  | nil => exact ⟨hst, rfl⟩
  | cons e rest ih =>
    have he : aptUpdateCmd ∉ e := hops e (List.mem_cons_self e rest)
    have hrest : ∀ x ∈ rest, aptUpdateCmd ∉ x := fun x hx => hops x (List.mem_cons_of_mem e hx)
    have hstep : aptOp e st = { st with log := st.log ++ e } := by
      simp [aptOp, update_cache, hst]
    have := ih (aptOp e st) (by rw [hstep]; exact hst) hrest
    rw [runOps] at this ⊢
    simp only [List.foldl_cons]
    refine ⟨this.1, ?_⟩
    rw [this.2, hstep]
    simp [List.count_append, List.count_eq_zero.mpr he]

/-- C4: within one process lifetime, across any non-empty sequence of
package-manager operations that each depend on a fresh cache, the refresh
command `sudo apt update -y` is run exactly once: the first operation runs
it and sets the process-wide flag, and no later operation runs it again
(the flag is never reset in the source). -/
theorem update_cache_once (ops : List (List (List String))) (st : AptState)
    (hst : st.cacheUpdated = false) (hne : ops ≠ [])
    (hops : ∀ e ∈ ops, aptUpdateCmd ∉ e) :
    (runOps ops st).cacheUpdated = true ∧
    (runOps ops st).log.count aptUpdateCmd = st.log.count aptUpdateCmd + 1 := by
  match ops, hne with
  | e :: rest, _ =>
    have he : aptUpdateCmd ∉ e := hops e (List.mem_cons_self e rest)
    have hrest : ∀ x ∈ rest, aptUpdateCmd ∉ x := fun x hx => hops x (List.mem_cons_of_mem e hx)
    have hstep : aptOp e st =
        { cacheUpdated := true, log := (st.log ++ [aptUpdateCmd]) ++ e } := by
      simp [aptOp, update_cache, hst]
    have hfresh := runOps_fresh rest (aptOp e st) (by rw [hstep]) hrest
    rw [runOps] at hfresh ⊢
    simp only [List.foldl_cons]
    refine ⟨hfresh.1, ?_⟩
    rw [hfresh.2, hstep]
    simp [List.count_append, List.count_eq_zero.mpr he, List.count_singleton]

/-- Witness for `update_cache_once`: two concrete operations
(`apt list --upgradable` and `sudo apt full-upgrade -y`) starting from a
stale cache and an empty log produce exactly one refresh invocation. -/
theorem update_cache_once_witness :
    (runOps [[["apt", "list", "--upgradable"]], [["sudo", "apt", "full-upgrade", "-y"]]]
      ⟨false, []⟩).cacheUpdated = true ∧
    (runOps [[["apt", "list", "--upgradable"]], [["sudo", "apt", "full-upgrade", "-y"]]]
      ⟨false, []⟩).log.count aptUpdateCmd
      = (AptState.mk false []).log.count aptUpdateCmd + 1 :=
  update_cache_once _ _ rfl (by decide) (by decide)

/-- Helper: looking up after an insert. -/
theorem FS.lookup_insert (fs : FS) (p q : List String) (k : FKind) :
    (fs.insert p k).lookup q = if q = p then some k else fs.lookup q := by
  by_cases h : q = p
  · simp [FS.lookup, FS.insert, List.find?, h]
  · have hbeq : (p == q) = false := by
      simp [beq_iff_eq]
      exact fun hpq => h hpq.symm
    simp [FS.lookup, FS.insert, List.find?, hbeq, h]

/-- Helper: `mkdir_p` on an existing directory is a no-op. -/
theorem mkdir_p_of_isdir (M : FS → List String → Except Nat FS) (fs : FS)
    (p : List String) (h : isdir fs p = true) :
    mkdir_p M fs p = Except.ok fs := by
  unfold mkdir_p
  simp [h]

/-- Helper: `mkdir_p` on a path occupied by a regular file raises. -/
theorem mkdir_p_of_isfile (M : FS → List String → Except Nat FS) (fs : FS)
    (p : List String) (h1 : isdir fs p = false) (h2 : isfile fs p = true) :
    mkdir_p M fs p = Except.error MkErr.pathConflict := by
  unfold mkdir_p
  simp [h1, h2]

/-- Helper: when no recursion on the head is needed and the tail is
non-empty, `mkdir_p` reduces to the guarded creation step. -/
theorem mkdir_p_creation_step (M : FS → List String → Except Nat FS) (fs : FS)
    (p : List String) (h1 : isdir fs p = false) (h2 : isfile fs p = false)
    (hnr : p.dropLast = [] ∨ isdir fs p.dropLast = true) (ht : p.getLastD "" ≠ "") :
    mkdir_p M fs p =
      match M fs p with
      | Except.ok fs2 => Except.ok fs2
      | Except.error e =>
        if e = EEXIST then Except.ok fs else Except.error (MkErr.osError e) := by
  unfold mkdir_p
  have hcond : ¬ (p.dropLast ≠ [] ∧ isdir fs p.dropLast = false) := by
    rcases hnr with h | h
    · exact fun hc => hc.1 h
    · exact fun hc => by rw [h] at hc; exact Bool.true_eq_false.mp hc.2
  simp [h1, h2, hcond, ht]
  intro hfalse
  rw [List.getLastD_eq_getLast?] at ht
  exact absurd hfalse ht

/-- Helper: one unfolding of `mkdir_p` through a successful (or skipped)
recursion on the head, leaving the guarded creation step on `fs1`. -/
theorem mkdir_p_step (M : FS → List String → Except Nat FS) (fs fs1 : FS)
    (p : List String) (h1 : isdir fs p = false) (h2 : isfile fs p = false)
    (ht : p.getLastD "" ≠ "")
    (hstep : (¬ (p.dropLast ≠ [] ∧ isdir fs p.dropLast = false) ∧ fs1 = fs) ∨
             ((p.dropLast ≠ [] ∧ isdir fs p.dropLast = false) ∧
               mkdir_p M fs p.dropLast = Except.ok fs1)) :
    mkdir_p M fs p =
      match M fs1 p with
      | Except.ok fs2 => Except.ok fs2
      | Except.error e =>
        if e = EEXIST then Except.ok fs1 else Except.error (MkErr.osError e) := by
  rcases hstep with ⟨hnr, rfl⟩ | ⟨hr, hrec⟩
  · unfold mkdir_p
    simp [h1, h2, hnr, ht]
    intro hfalse
    rw [List.getLastD_eq_getLast?] at ht
    exact absurd hfalse ht
  · conv_lhs => unfold mkdir_p
    simp [h1, h2, hr, hrec, ht]
    intro hfalse
    rw [List.getLastD_eq_getLast?] at ht
    exact absurd hfalse ht

/-- C5: recursive directory creation (a) succeeds as a no-op when the
target already exists as a directory, (b) fails with the `PathConflict`
error when the target exists as a regular file, and, at the creation
step, (c) treats an already-exists (`EEXIST`) failure of the primitive
as success while (d) any other creation errno is re-raised as fatal.
`M` is the creation primitive, so (c)/(d) cover the benign-race case
where another process created the directory in between. -/
theorem mkdir_p_spec :
    (∀ (M : FS → List String → Except Nat FS) (fs : FS) (p : List String),
      isdir fs p = true → mkdir_p M fs p = Except.ok fs) ∧
    (∀ (M : FS → List String → Except Nat FS) (fs : FS) (p : List String),
      isdir fs p = false → isfile fs p = true →
      mkdir_p M fs p = Except.error MkErr.pathConflict) ∧
    (∀ (M : FS → List String → Except Nat FS) (fs : FS) (p : List String),
      isdir fs p = false → isfile fs p = false →
      (p.dropLast = [] ∨ isdir fs p.dropLast = true) → p.getLastD "" ≠ "" →
      M fs p = Except.error EEXIST → mkdir_p M fs p = Except.ok fs) ∧
    (∀ (M : FS → List String → Except Nat FS) (fs : FS) (p : List String) (e : Nat),
      isdir fs p = false → isfile fs p = false →
      (p.dropLast = [] ∨ isdir fs p.dropLast = true) → p.getLastD "" ≠ "" →
      M fs p = Except.error e → e ≠ EEXIST →
      mkdir_p M fs p = Except.error (MkErr.osError e)) := by
  refine ⟨mkdir_p_of_isdir, mkdir_p_of_isfile, ?_, ?_⟩
  · intro M fs p h1 h2 hnr ht hM
    rw [mkdir_p_creation_step M fs p h1 h2 hnr ht, hM]
    simp
  · intro M fs p e h1 h2 hnr ht hM he
    rw [mkdir_p_creation_step M fs p h1 h2 hnr ht, hM]
    simp [he]

/-- Witness for `mkdir_p_spec` at concrete inputs: an existing directory
`a`, a regular file `a`, and a single-segment creation where the
primitive reports `EEXIST` (swallowed) or `EACCES` (fatal). -/
theorem mkdir_p_spec_witness :
    mkdir_p os_mkdir ⟨[(["a"], FKind.dir)]⟩ ["a"] = Except.ok ⟨[(["a"], FKind.dir)]⟩ ∧
    mkdir_p os_mkdir ⟨[(["a"], FKind.file)]⟩ ["a"] = Except.error MkErr.pathConflict ∧
    mkdir_p (fun _ _ => Except.error EEXIST) ⟨[]⟩ ["a"] = Except.ok ⟨[]⟩ ∧
    mkdir_p (fun _ _ => Except.error EACCES) ⟨[]⟩ ["a"] =
      Except.error (MkErr.osError EACCES) :=
  ⟨mkdir_p_spec.1 _ _ _ (by decide),
   mkdir_p_spec.2.1 _ _ _ (by decide) (by decide),
   mkdir_p_spec.2.2.1 _ _ _ (by decide) (by decide) (Or.inl rfl) (by decide) rfl,
   mkdir_p_spec.2.2.2 _ _ _ _ (by decide) (by decide) (Or.inl rfl) (by decide) rfl
     (by decide)⟩

/-- Helper: on a path all of whose non-empty prefixes are absent (and
whose segments are non-empty), `mkdir_p` with the race-free primitive
`os_mkdir` succeeds, and the resulting filesystem is the input plus a
directory at every non-empty prefix of the path. -/
theorem mkdir_p_creates (p : List String) :
    ∀ fs : FS, p ≠ [] → (∀ s ∈ p, s ≠ "") →
    (∀ q : List String, q ≠ [] → q.isPrefixOf p = true → fs.lookup q = none) →
    ∃ fs' : FS, mkdir_p os_mkdir fs p = Except.ok fs' ∧
      ∀ q : List String, fs'.lookup q =
        if q ≠ [] ∧ q.isPrefixOf p = true then some FKind.dir else fs.lookup q := by
  induction p using List.reverseRecOn with
  | nil => intro fs hne _ _; exact absurd rfl hne
  | append_singleton l a ih =>
    intro fs _ hseg habs
    have ha : a ≠ "" := hseg a (by simp)
    have hself : (l ++ [a]).isPrefixOf (l ++ [a]) = true := by
      simp [ List.isPrefixOf_iff_prefix]
    have hlookup_p : fs.lookup (l ++ [a]) = none := habs (l ++ [a]) (by simp) hself
    have h1 : isdir fs (l ++ [a]) = false := by simp [isdir, hlookup_p]
    have h2 : isfile fs (l ++ [a]) = false := by simp [isfile, hlookup_p]
    have hdrop : (l ++ [a]).dropLast = l := List.dropLast_concat
    have htail : (l ++ [a]).getLastD "" = a := List.getLastD_concat _ _ _
    have key : ∃ fs1 : FS,
        ((¬ ((l ++ [a]).dropLast ≠ [] ∧ isdir fs ((l ++ [a]).dropLast) = false) ∧
            fs1 = fs) ∨
         (((l ++ [a]).dropLast ≠ [] ∧ isdir fs ((l ++ [a]).dropLast) = false) ∧
            mkdir_p os_mkdir fs ((l ++ [a]).dropLast) = Except.ok fs1)) ∧
        ∀ q : List String, fs1.lookup q =
          if q ≠ [] ∧ q.isPrefixOf l = true then some FKind.dir else fs.lookup q := by
      by_cases hl : l = []
      · refine ⟨fs, Or.inl ⟨by rw [hdrop]; exact fun hc => hc.1 hl, rfl⟩, ?_⟩
        intro q
        have hcond : ¬ (q ≠ [] ∧ q.isPrefixOf l = true) := by
          rintro ⟨hqne, hqp⟩
          rw [hl,  List.isPrefixOf_iff_prefix] at hqp
          exact hqne (List.prefix_nil.mp hqp)
        rw [if_neg hcond]
      · have hldir : isdir fs l = false := by
          have := habs l hl
            (by rw [ List.isPrefixOf_iff_prefix]; exact List.prefix_append l [a])
          simp [isdir, this]
        have hseg_l : ∀ s ∈ l, s ≠ "" := fun s hs => hseg s (by simp [hs])
        have hpre_l : ∀ q : List String, q ≠ [] → q.isPrefixOf l = true →
            fs.lookup q = none := by
          intro q hq hqp
          refine habs q hq ?_
          rw [ List.isPrefixOf_iff_prefix] at hqp ⊢
          exact hqp.trans (List.prefix_append l [a])
        obtain ⟨fs1, hrec, hc1⟩ := ih fs hl hseg_l hpre_l
        exact ⟨fs1, Or.inr ⟨by rw [hdrop]; exact ⟨hl, hldir⟩, by rw [hdrop]; exact hrec⟩,
          hc1⟩
    obtain ⟨fs1, hstep, hc1⟩ := key
    have hred := mkdir_p_step os_mkdir fs fs1 (l ++ [a]) h1 h2
      (by rw [htail]; exact ha) hstep
    have hlook1 : fs1.lookup (l ++ [a]) = none := by
      rw [hc1 (l ++ [a])]
      have hcond : ¬ ((l ++ [a]) ≠ [] ∧ (l ++ [a]).isPrefixOf l = true) := by
        rintro ⟨_, hp⟩
        rw [ List.isPrefixOf_iff_prefix] at hp
        have hle := hp.length_le
        simp at hle
      rw [if_neg hcond]
      exact hlookup_p
    have hnoent : ¬ ((l ++ [a]).dropLast ≠ [] ∧ isdir fs1 ((l ++ [a]).dropLast) = false)
        := by
      rw [hdrop]
      by_cases hl : l = []
      · exact fun hc => hc.1 hl
      · rintro ⟨_, hdir⟩
        have hcond : l ≠ [] ∧ l.isPrefixOf l = true :=
          ⟨hl, by simp [ List.isPrefixOf_iff_prefix]⟩
        have hlk := hc1 l
        rw [if_pos hcond] at hlk
        simp [isdir, hlk] at hdir
    have hm : os_mkdir fs1 (l ++ [a]) = Except.ok (fs1.insert (l ++ [a]) FKind.dir)
        := by
      unfold os_mkdir
      simp only [hlook1, Option.isSome_none, Bool.false_eq_true, if_false]
      rw [if_neg hnoent]
    refine ⟨fs1.insert (l ++ [a]) FKind.dir, by rw [hred, hm], ?_⟩
    intro q
    rw [FS.lookup_insert, hc1 q]
    by_cases hq : q = l ++ [a]
    · rw [if_pos hq, if_pos (by exact ⟨by simp [hq], by rw [hq]; exact hself⟩)]
    · rw [if_neg hq]
      have hiff : (q ≠ [] ∧ q.isPrefixOf l = true) ↔
          (q ≠ [] ∧ q.isPrefixOf (l ++ [a]) = true) := by
        constructor
        · rintro ⟨hqne, hqp⟩
          refine ⟨hqne, ?_⟩
          rw [ List.isPrefixOf_iff_prefix] at hqp ⊢
          exact hqp.trans (List.prefix_append l [a])
        · rintro ⟨hqne, hqp⟩
          refine ⟨hqne, ?_⟩
          rw [ List.isPrefixOf_iff_prefix] at hqp ⊢
          rcases List.prefix_concat_iff.mp hqp with h | h
          · exact absurd h hq
          · exact h
      exact if_congr hiff rfl rfl

/-- C6: for a path whose (possibly multi-level) prefix is entirely
missing, `mkdir_p` creates every missing ancestor and the path itself as
directories, and a second `mkdir_p` on the same path succeeds as a no-op
on the resulting filesystem (idempotence). -/
theorem mkdir_p_idempotent (p : List String) (fs : FS) (hp : p ≠ [])
    (hseg : ∀ s ∈ p, s ≠ "")
    (habs : ∀ q : List String, q ≠ [] → q.isPrefixOf p = true → fs.lookup q = none) :
    ∃ fs' : FS, mkdir_p os_mkdir fs p = Except.ok fs' ∧
      (∀ q : List String, q ≠ [] → q.isPrefixOf p = true →
        fs'.lookup q = some FKind.dir) ∧
      mkdir_p os_mkdir fs' p = Except.ok fs' := by
  obtain ⟨fs', h1, hc⟩ := mkdir_p_creates p fs hp hseg habs
  have hdirs : ∀ q : List String, q ≠ [] → q.isPrefixOf p = true →
      fs'.lookup q = some FKind.dir := by
    intro q hq hpre
    rw [hc q, if_pos ⟨hq, hpre⟩]
  have hpd : isdir fs' p = true := by
    have := hdirs p hp (by simp [ List.isPrefixOf_iff_prefix])
    simp [isdir, this]
  exact ⟨fs', h1, hdirs, mkdir_p_of_isdir _ _ _ hpd⟩

/-- Witness for `mkdir_p_idempotent`: creating `a/b/c` in an empty
filesystem (every prefix level missing). -/
theorem mkdir_p_idempotent_witness :
    ∃ fs' : FS, mkdir_p os_mkdir ⟨[]⟩ ["a", "b", "c"] = Except.ok fs' ∧
      (∀ q : List String, q ≠ [] → q.isPrefixOf ["a", "b", "c"] = true →
        fs'.lookup q = some FKind.dir) ∧
      mkdir_p os_mkdir fs' ["a", "b", "c"] = Except.ok fs' :=
  mkdir_p_idempotent ["a", "b", "c"] ⟨[]⟩ (by decide) (by decide) (fun _ _ _ => rfl)

/-- C7, counterexample: an existing entry with the owner-read bit clear
and write access (e.g. a mode `0o200` file in a write-protected parent)
is not classified read-only by `is_readonly_path`, so when its removal
fails with the permission errno `EACCES` the handler performs no
write-bit grant and no retry — it warns and continues directly,
contradicting the claim that every permission-error entry is retried
exactly once after a write-bit grant. -/
theorem handle_remove_readonly_no_retry_on_perm :
    is_readonly_path true false true = false ∧
    permErrno EACCES = true ∧
    handle_remove_readonly false none EACCES = ⟨false, true, false⟩ :=
  ⟨rfl, rfl, rfl⟩

/-- C7, amended: the handler grants the write bit and retries exactly
when the entry tests read-only (whatever the error class); the removal
continues — always with the non-fatal warning — exactly when the
original error is a permission error or the read-only retry failed with
a permission error; in every other case the original error propagates
and aborts the removal. -/
theorem handle_remove_readonly_spec (readonly : Bool) (retryErr : Option Nat)
    (origErrno : Nat) :
    (handle_remove_readonly readonly retryErr origErrno).retried = readonly ∧
    ((handle_remove_readonly readonly retryErr origErrno).propagated = false ↔
      permErrno origErrno = true ∨
        (readonly = true ∧ ∃ e, retryErr = some e ∧ permErrno e = true)) ∧
    (handle_remove_readonly readonly retryErr origErrno).warned =
      !(handle_remove_readonly readonly retryErr origErrno).propagated := by
  cases readonly with
  | false =>
    by_cases h : permErrno origErrno = true <;>
      simp [handle_remove_readonly, h]
  | true =>
    cases retryErr with
    | none =>
      by_cases h : permErrno origErrno = true <;>
        simp [handle_remove_readonly, h]
    | some e =>
      by_cases he : permErrno e = true <;>
        by_cases h : permErrno origErrno = true <;>
          simp [handle_remove_readonly, he, h]

/-- C8, counterexample: with no packages on the command line and a
present but empty package-list file, `install` does not fail with a
no-packages error — it invokes `sudo apt install -y` with zero package
names and returns success (0).  Only a missing file produces the
failure return. -/
theorem install_empty_both_succeeds :
    splitlines "" = [] ∧
    (install true [] (some "") [] ⟨false, []⟩).2 =
      (0, some ["sudo", "apt", "install", "-y"]) :=
  ⟨by decide, by decide⟩

/-- C8, amended: the package list is resolved from `pkgs` plus the
command-line arguments when that concatenation is non-empty, otherwise
from the on-disk file; a file with three names yields exactly those
three names in order; a missing file (with no arguments) returns the
failure code 1; a missing `apt-get` binary returns 1; a present-but-empty
resolution still invokes the install command and returns 0. -/
theorem install_resolution (st : AptState) (contents : String)
    (argsPackages pkgs : List String) :
    ((install true argsPackages (some contents) pkgs st).2 =
      if pkgs ++ argsPackages = [] then
        (0, some (["sudo", "apt", "install", "-y"] ++ splitlines contents))
      else (0, some (["sudo", "apt", "install", "-y"] ++ (pkgs ++ argsPackages)))) ∧
    (install true [] none [] st).2 = (1, none) ∧
    splitlines "p1\np2\np3" = ["p1", "p2", "p3"] ∧
    (install true [] (some "p1\np2\np3") [] st).2 =
      (0, some (["sudo", "apt", "install", "-y"] ++ splitlines "p1\np2\np3")) ∧
    (install false argsPackages (some contents) pkgs st).2 = (1, none) := by
  refine ⟨?_, rfl, by decide, rfl, rfl⟩
  by_cases h : pkgs ++ argsPackages = []
  · obtain ⟨h1, h2⟩ := List.append_eq_nil.mp h
    simp [install, h1, h2]
  · have h2 : ¬ (pkgs = [] ∧ argsPackages = []) := by
      rw [← List.append_eq_nil]
      exact h
    simp [install, h, h2]

/-- C9: evaluation of the selection loop at the claim's inputs for a menu
of size 3.  Entering `"0"` is NOT rejected: `int("0") - 1 = -1` and
Python negative indexing selects the LAST asset (index 2), contradicting
the claim (and the 1-based menu the code prints).  The true parts also
hold: a too-large number and a non-numeric string re-prompt and the next
input is honored, and empty input cancels without crashing. -/
theorem pick_asset_zero_selects_last :
    pick_asset ["0"] 3 = PickResult.chosen 2 ∧
    pick_asset ["4", "2"] 3 = PickResult.chosen 1 ∧
    pick_asset ["abc", "2"] 3 = PickResult.chosen 1 ∧
    pick_asset [""] 3 = PickResult.canceled :=
  ⟨by decide, by decide, by decide, by decide⟩

/-- C10: two `git_clone` calls with identical `repo` and `dest_path`
arguments and `args` left at its default build DIFFERENT command
vectors: the first call appends the expanded destination to the shared
default list, so the second call's vector carries a stale extra token.
The defaulted `dest_path` is `""`, whose expansion `""` is appended once
per call. -/
theorem git_clone_default_args_mutation :
    (git_clone true "/home/u" ⟨["--recursive"]⟩ "myrepo" (some "") none).1 =
      some ["git", "clone", "git@github.com:comfortablynick/myrepo.git",
        "--recursive", ""] ∧
    (git_clone true "/home/u"
        (git_clone true "/home/u" ⟨["--recursive"]⟩ "myrepo" (some "") none).2
        "myrepo" (some "") none).1 =
      some ["git", "clone", "git@github.com:comfortablynick/myrepo.git",
        "--recursive", "", ""] ∧
    (git_clone true "/home/u" ⟨["--recursive"]⟩ "myrepo" (some "") none).1 ≠
      (git_clone true "/home/u"
        (git_clone true "/home/u" ⟨["--recursive"]⟩ "myrepo" (some "") none).2
        "myrepo" (some "") none).1 := by
  refine ⟨rfl, rfl, ?_⟩
  decide
